import Mathlib

/-!
Verification of the preferences code-hint engine
(src/extensions/default/PrefsCodeHints/main.js).

The engine is shallowly embedded below.  The external collaborators named
by the spec (the JSON context-analysis service, the string matcher, the
language / lint-provider / theme registries and the editor buffer) are not
part of the source tree; contexts and registries are therefore inputs of
the embedded functions, and the few small external helpers the engine
calls are modelled from the spec, each marked by a doc comment.
-/

set_option linter.unusedVariables false

/-- Token type constants of the context-analysis service
(JSONUtils.TOKEN_KEY / JSONUtils.TOKEN_VALUE). -/
inductive TokenType where
  | key : TokenType
  | value : TokenType
deriving DecidableEq

/-- The current CodeMirror token inside the context:
its text and its start/end columns on the line. -/
structure Token where
  string : String
  start : Nat
  stop : Nat
deriving DecidableEq

/-- The context record returned by JSONUtils.getContextInfo.
The token type is optional since getContextInfo may yield a record with
no recognised token type. -/
structure ContextInfo where
  tokenType : Option TokenType
  token : Token
  offset : Nat
  keyName : String
  parentKeyName : String
  isArray : Bool
  shouldReplace : Bool
  exclusionList : List String
deriving DecidableEq

/-- An editor cursor position (line, column). -/
structure EditorPos where
  line : Nat
  ch : Nat
deriving DecidableEq

/-- A schema / preference entry as stored in the `data` registry of
main.js: value type tag, description, nested key map, allowed values,
optional valueType override and the excludeFromHints flag.  Absent JS
object fields are `none`. -/
inductive PrefEntry : Type where
  | mk (type : Option String) (description : Option String)
       (keys : Option (List (String × PrefEntry)))
       (values : Option (List String))
       (valueType : Option String)
       (excludeFromHints : Option Bool) : PrefEntry

def PrefEntry.type : PrefEntry → Option String
  | PrefEntry.mk t _ _ _ _ _ => t

def PrefEntry.description : PrefEntry → Option String
  | PrefEntry.mk _ d _ _ _ _ => d

def PrefEntry.keys : PrefEntry → Option (List (String × PrefEntry))
  | PrefEntry.mk _ _ k _ _ _ => k

def PrefEntry.values : PrefEntry → Option (List String)
  | PrefEntry.mk _ _ _ v _ _ => v

def PrefEntry.valueType : PrefEntry → Option String
  | PrefEntry.mk _ _ _ _ v _ => v

def PrefEntry.excludeFromHints : PrefEntry → Option Bool
  | PrefEntry.mk _ _ _ _ _ e => e

/-- The `data` object of main.js: a string-keyed map of entries,
represented as an association list in JS key-insertion order. -/
abbrev Registry := List (String × PrefEntry)

/-- Key lookup in a JS object represented as an association list. -/
def lookupAssoc {α : Type} : List (String × α) → String → Option α
  | [], _ => none
  | (n, e) :: rest, k => if n = k then some e else lookupAssoc rest k

/-- Key assignment in a JS object: replace in place if the key exists,
append otherwise (JS objects keep first-insertion order). -/
def setAssoc {α : Type} : List (String × α) → String → α → List (String × α)
  | [], k, v => [(k, v)]
  | (n, e) :: rest, k, v =>
    if n = k then (n, v) :: rest else (n, e) :: setAssoc rest k v

/-- First-some choice, the per-field behaviour of jQuery extend
(source fields overwrite, absent source fields keep the target). -/
def orOpt {α : Type} : Option α → Option α → Option α
  | some a, _ => some a
  | none, b => b

/-- The JS `a || b` on possibly-absent strings: an absent or empty
string is falsy. -/
def jsOrStr : Option String → Option String → Option String
  | some s, b => if s = "" then b else some s
  | none, b => b

/-- JS string coercion applied by `+` to a possibly-undefined operand:
an undefined value concatenates as the literal text "undefined". -/
def jsCoe : Option String → String
  | some s => s
  | none => "undefined"

/-- The freshly initialised local `option` object of getHints:
`\x7btype: null, description: null, values: null\x7d`. -/
def emptyOption : PrefEntry := PrefEntry.mk none none none none none none

/-- Field-wise merge of a preference into an existing entry, the value
semantics of `$.extend(data[pref], preference)` in the constructor
(main.js line 176): defined source fields overwrite, absent ones keep
the target.  The subsequent `data[pref].keys = _.clone(preference.keys)`
(line 180) is value-equal to the merge of the keys field. -/
def extendEntry (t s : PrefEntry) : PrefEntry :=
  PrefEntry.mk (orOpt s.type t.type) (orOpt s.description t.description)
    (orOpt s.keys t.keys) (orOpt s.values t.values)
    (orOpt s.valueType t.valueType)
    (orOpt s.excludeFromHints t.excludeFromHints)

/-- Strings.DESCRIPTION_LANGUAGE, the fixed description of the built-in
`language` root entry (an opaque localised string constant). -/
def DESCRIPTION_LANGUAGE : String := "DESCRIPTION_LANGUAGE"

/-- Strings.DESCRIPTION_PATH, the fixed description of the built-in
`path` root entry. -/
def DESCRIPTION_PATH : String := "DESCRIPTION_PATH"

/-- The initial `data` object of main.js lines 43-52: the two reserved
root entries `language` and `path`, each typed object with its fixed
description. -/
def initialData : Registry :=
  [("language", PrefEntry.mk (some "object") (some DESCRIPTION_LANGUAGE)
      none none none none),
   ("path", PrefEntry.mk (some "object") (some DESCRIPTION_PATH)
      none none none none)]

/-- One step of the constructor loop (main.js lines 171-182): skip
entries flagged excludeFromHints, otherwise merge the preference into
the registry under its name. -/
def registerPref (d : Registry) (name : String) (p : PrefEntry) : Registry :=
  if p.excludeFromHints = some true then d
  else setAssoc d name (extendEntry ((lookupAssoc d name).getD emptyOption) p)

/-- The PrefsCodeHints constructor build of the registry: fold every
known preference over the initial built-in data. -/
def buildData (prefs : List (String × PrefEntry)) : Registry :=
  prefs.foldl (fun d q => registerPref d q.1 q.2) initialData

/-- The single-quote character (written via its code point). -/
def squote : Char := Char.ofNat 39

/-- The test `/^['"]$/.test(startChar)` of main.js: is the character one
of the two JSON-ish quote characters. -/
def isQuoteChar (c : Char) : Bool := c = '"' || c = squote

/-- Modelled from the spec: the token classifier
`JSONUtils.regexAllowedChars` of the external context-analysis service,
which accepts a token that is purely whitespace/placeholder text (only
whitespace or comma characters, or a single lone quote character). -/
def regexAllowedCharsTest (s : String) : Bool :=
  s.toList.all (fun c => c = ' ' || c = Char.ofNat 9 || c = Char.ofNat 10 ||
    c = Char.ofNat 13 || c = ',') || s = "\"" || s = String.mk [squote]

/-- Modelled from the spec: `JSONUtils.stripQuotes` of the external
context-analysis service, which strips one surrounding quote character
from each end of the query text. -/
def stripQuotes (s : String) : String :=
  let l1 :=
    match s.toList with
    | c :: rest => if isQuoteChar c then rest else s.toList
    | [] => []
  let l2 :=
    match l1.getLast? with
    | some c => if isQuoteChar c then l1.dropLast else l1
    | none => l1
  String.mk l2

/-- A whitespace character as removed by the JS trim method. -/
def isWsChar (c : Char) : Bool :=
  c = ' ' || c = Char.ofNat 9 || c = Char.ofNat 10 || c = Char.ofNat 13

/-- The JS String trim method: drop whitespace from both ends. -/
def jsTrim (s : String) : String :=
  String.mk (((s.toList.dropWhile isWsChar).reverse.dropWhile isWsChar).reverse)

/-- The query computation of getHints (main.js lines 221-224): the token
text truncated at the cursor offset, quote-stripped and trimmed, and
reset to empty when it is purely whitespace/placeholder text. -/
def computeQuery (ctx : ContextInfo) : String :=
  let q := jsTrim (stripQuotes (String.mk (ctx.token.string.toList.take ctx.offset)))
  if regexAllowedCharsTest q then "" else q

/-- Does the first list occur at the head of the second. -/
def leadsB : List Char → List Char → Bool
  | [], _ => true
  | _ :: _, [] => false
  | a :: as, b :: bs => a = b && leadsB as bs

/-- Does the first list occur contiguously anywhere inside the second. -/
def withinB (q : List Char) : List Char → Bool
  | [] => leadsB q []
  | c :: rest => leadsB q (c :: rest) || withinB q rest

/-- Modelled from the spec: the acceptance test of the external
`StringMatch.stringMatch` engine — a candidate is kept when the typed
query occurs inside it (prefix or substring/fuzzy match), and the empty
query matches every candidate; a candidate with no match is dropped. -/
def stringMatchAccepts (str query : String) : Bool :=
  withinB query.toList str.toList

/-- A produced match record: the candidate text together with the type
tag and description attached by getHints. -/
structure HintMatch where
  value : String
  type : Option String
  description : Option String
deriving DecidableEq

/-- Modelled from the spec: the external `StringMatch.basicMatchSort`
applied by formatHints is a stable rank sort; the acceptance-only match
model carries no scores, all accepted records tie, and the stable sort
preserves candidate registration order, so it is the identity here. -/
def basicMatchSort (hints : List HintMatch) : List HintMatch := hints

/-- The record returned by getHints (hints list plus the fixed fields
match: null, selectInitial: true, handleWideResults: false). -/
structure HintResponse where
  hints : List HintMatch
  matchVal : Option String
  selectInitial : Bool
  handleWideResults : Bool
deriving DecidableEq

/-- The fixed deny-list of parent keys for which no key hints are
offered (main.js lines 59-63). -/
def parentKeyBlacklist : List String :=
  ["language.fileExtensions", "language.fileNames", "path"]

/-- PrefsCodeHints.prototype.hasHints (main.js lines 192-207), with the
process-wide enablement flag, the detected editor mode and the context
returned by the external context-analysis service as inputs. -/
def hasHints (isPrefHintsEnabled : Bool) (mode : String)
    (ctxInfo : Option ContextInfo) : Bool :=
  if isPrefHintsEnabled = true ∧ mode = "application/json" then
    match ctxInfo with
    | some ctx =>
      if ctx.tokenType.isSome then
        if ctx.tokenType = some TokenType.key ∧
            parentKeyBlacklist.contains ctx.parentKeyName = true then false
        else true
      else false
    | none => false
  else false

/-- The key-source selection of the getHints KEY branch (main.js lines
230-237): the nested key map of the parent entry when present, else the
language registry (with option.type set to "object") when the parent is
`language`, else the root data map.  Returns the candidate list of
(key, type, description) triples paired with the option.type value. -/
def keySources (data : Registry) (languages : List String) (parent : String) :
    List (String × Option String × Option String) × Option String :=
  match (lookupAssoc data parent).bind PrefEntry.keys with
  | some ks => (ks.map (fun p => (p.1, p.2.type, p.2.description)), none)
  | none =>
    if parent = "language" then
      (languages.map (fun l => (l, none, none)), some "object")
    else
      (data.map (fun p => (p.1, p.2.type, p.2.description)), none)

/-- The getHints KEY branch (main.js lines 239-248): drop keys on the
exclusion list, match the rest against the query, and attach
`keys[key].type || option.type` and `keys[key].description || null`. -/
def keyHints (data : Registry) (languages : List String)
    (ctx : ContextInfo) (query : String) : List HintMatch :=
  ((keySources data languages ctx.parentKeyName).1).filterMap (fun e =>
    if ctx.exclusionList.contains e.1 then none
    else if stringMatchAccepts e.1 query then
      some { value := e.1,
             type := jsOrStr e.2.1 (keySources data languages ctx.parentKeyName).2,
             description := jsOrStr e.2.2 none }
    else none)

/-- The option resolution of the getHints VALUE branch (main.js lines
253-258): the nested entry `data[parent].keys[keyName]` when it exists,
else the root entry `data[keyName]`, else the fresh empty option. -/
def resolveOption (data : Registry) (parent key : String) : PrefEntry :=
  match ((lookupAssoc data parent).bind PrefEntry.keys).bind
      (fun ks => lookupAssoc ks key) with
  | some o => o
  | none =>
    match lookupAssoc data key with
    | some o => o
    | none => emptyOption

/-- The value-source selection of the getHints VALUE branch (main.js
lines 260-277), as a function of the resolved option: boolean type
gives the literal false/true pair; a defined allowed-value list for
number/string or in-array array options gives that list; the
linting.prefer-inside-array case gives the lint providers of the parent
language; themes.theme gives the theme names; a file-extension or
file-name map parent gives the language ids; otherwise null. -/
def valuesFromOption (option : PrefEntry) (languages : List String)
    (providersFor : String → List String) (themes : List String)
    (ctx : ContextInfo) : Option (List String) :=
  if option.type = some "boolean" then
    some ["false", "true"]
  else if option.values.isSome = true ∧
      (option.type = some "number" ∨ option.type = some "string" ∨
        (option.type = some "array" ∧ ctx.isArray = true)) then
    option.values
  else if ctx.isArray = true ∧ ctx.keyName = "linting.prefer" ∧
      languages.contains ctx.parentKeyName = true then
    some (providersFor ctx.parentKeyName)
  else if ctx.keyName = "themes.theme" then
    some themes
  else if ctx.parentKeyName = "language.fileExtensions" ∨
      ctx.parentKeyName = "language.fileNames" then
    some languages
  else
    none

/-- The unranked value candidate set of a VALUE context: the
value-source selection applied to the resolved option.  The subsequent
number-to-string conversion of main.js lines 280-284 is the identity
here since allowed values are modelled as strings. -/
def resolveValues (data : Registry) (languages : List String)
    (providersFor : String → List String) (themes : List String)
    (ctx : ContextInfo) : Option (List String) :=
  valuesFromOption (resolveOption data ctx.parentKeyName ctx.keyName)
    languages providersFor themes ctx

/-- The getHints VALUE branch match step (main.js lines 287-294): match
each value against the query and attach
`option.valueType || option.type` and `option.description || null`. -/
def valueHints (data : Registry) (values : List String)
    (ctx : ContextInfo) (query : String) : List HintMatch :=
  values.filterMap (fun v =>
    if stringMatchAccepts v query then
      some { value := v,
             type := jsOrStr (resolveOption data ctx.parentKeyName ctx.keyName).valueType
               (resolveOption data ctx.parentKeyName ctx.keyName).type,
             description := jsOrStr
               (resolveOption data ctx.parentKeyName ctx.keyName).description none }
    else none)

/-- PrefsCodeHints.prototype.getHints (main.js lines 215-305): null when
there is no context; the KEY branch produces key hints, the VALUE
branch returns null when no value source applies and value hints
otherwise; any other token type yields an empty hint list. -/
def getHints (data : Registry) (languages : List String)
    (providersFor : String → List String) (themes : List String)
    (ctxInfo : Option ContextInfo) : Option HintResponse :=
  match ctxInfo with
  | none => none
  | some ctx =>
    match ctx.tokenType with
    | some TokenType.key =>
      some { hints := basicMatchSort (keyHints data languages ctx (computeQuery ctx)),
             matchVal := none, selectInitial := true, handleWideResults := false }
    | some TokenType.value =>
      match resolveValues data languages providersFor themes ctx with
      | none => none
      | some values =>
        some { hints := basicMatchSort (valueHints data values ctx (computeQuery ctx)),
               matchVal := none, selectInitial := true, handleWideResults := false }
    | none =>
      some { hints := basicMatchSort [],
             matchVal := none, selectInitial := true, handleWideResults := false }

/-- The quote-character determination of the insertHint KEY branch
(main.js lines 329-334): the first character of the token when it is a
quote character, otherwise the variable stays undefined — the branch
has no default. -/
def quoteCharForKey (tok : String) : Option String :=
  match tok.toList.head? with
  | some c => if isQuoteChar c then some (String.mk [c]) else none
  | none => none

/-- The empty-body opener appended for the declared value type by the
switch of main.js lines 343-355: braces for object, brackets for array,
a quote pair for string, nothing otherwise. -/
def bodyFor : Option String → String
  | some "object" => "\x7b\x7d"
  | some "array" => "[]"
  | some "string" => "\"\""
  | _ => ""

/-- The completion text built by the insertHint KEY branch (main.js
lines 336-356): the completion wrapped in the (possibly undefined)
quote character on both sides, then, when the context does not indicate
whole-token replacement, a colon-space and the empty body for the
declared type.  The two conditionals express the single
`if (!ctxInfo.shouldReplace)` block appending both pieces. -/
def keyCompletionText (ctx : ContextInfo) (completion : String)
    (type : Option String) : String :=
  jsCoe (quoteCharForKey ctx.token.string) ++ completion ++
    jsCoe (quoteCharForKey ctx.token.string) ++
    (if ctx.shouldReplace then "" else ": ") ++
    (if ctx.shouldReplace then "" else bodyFor type)

/-- The replacement span of the insertHint VALUE branch (main.js lines
374-383): a zero-width point at the cursor for a whitespace token, the
whole token under whole-token replacement, else from
cursor-minus-offset to the token end. -/
def valueRange (ctx : ContextInfo) (pos : EditorPos) : Int × Int :=
  if regexAllowedCharsTest ctx.token.string then
    ((pos.ch : Int), (pos.ch : Int))
  else if ctx.shouldReplace then
    ((ctx.token.start : Int), (ctx.token.stop : Int))
  else
    ((pos.ch : Int) - (ctx.offset : Int), (ctx.token.stop : Int))

/-- The quote character of the insertHint VALUE branch (main.js lines
386-391): the first character of the token when it is a quote
character, else the default double quote. -/
def quoteCharForValue (tok : String) : String :=
  match tok.toList.head? with
  | some c => if isQuoteChar c then String.mk [c] else "\""
  | none => "\""

/-- The completion text built by the insertHint VALUE branch (main.js
lines 385-393): an untyped or string-typed completion is wrapped in the
quote character, any other type is inserted verbatim. -/
def valueCompletionText (ctx : ContextInfo) (completion : String)
    (type : Option String) : String :=
  if type = none ∨ type = some "" ∨ type = some "string" then
    quoteCharForValue ctx.token.string ++ completion ++
      quoteCharForValue ctx.token.string
  else completion

/-- One text edit handed to the editor buffer: the replacement text and
the replaced span on the cursor line. -/
structure RangeEdit where
  text : String
  line : Nat
  startCh : Int
  endCh : Int
deriving DecidableEq

/-- The observable outcome of insertHint: the buffer edit (absent when
no branch ran), the cursor column when setCursorPos was called, and the
returned continue-session flag (absent for an unrecognised token type,
where the JS function returns undefined). -/
structure InsertOutcome where
  edit : Option RangeEdit
  cursorCh : Option Int
  result : Option Bool
deriving DecidableEq

/-- PrefsCodeHints.prototype.insertHint (main.js lines 313-398).  The
KEY branch replaces [cursor-minus-offset, token end] with the quoted
completion plus optional colon and empty body, places the cursor before
the final character when the type is object/array/string, and continues
the session exactly when the type is a non-object of the three or lies
outside the three; the VALUE branch replaces the computed span with the
possibly-quoted completion and never continues the session. -/
def insertHint (ctx : ContextInfo) (pos : EditorPos) (completion : String)
    (type : Option String) : InsertOutcome :=
  match ctx.tokenType with
  | some TokenType.key =>
    { edit := some { text := keyCompletionText ctx completion type,
                     line := pos.line,
                     startCh := (pos.ch : Int) - (ctx.offset : Int),
                     endCh := (ctx.token.stop : Int) },
      cursorCh :=
        if type = some "object" ∨ type = some "array" ∨ type = some "string" then
          some ((pos.ch : Int) - (ctx.offset : Int) +
            ((keyCompletionText ctx completion type).length : Int) - 1)
        else none,
      result :=
        if type = some "object" ∨ type = some "array" ∨ type = some "string" then
          some (if type ≠ some "object" ∧ ctx.shouldReplace = false then true else false)
        else some true }
  | some TokenType.value =>
    { edit := some { text := valueCompletionText ctx completion type,
                     line := pos.line,
                     startCh := (valueRange ctx pos).1,
                     endCh := (valueRange ctx pos).2 },
      cursorCh := none,
      result := some false }
  | none => { edit := none, cursorCh := none, result := none }

/-! ### Concrete registries and contexts used by the individual claims -/

/-- The C1 scenario context: a KEY completion on an empty line at
offset 0 with no whole-token replacement. -/
def ctxC1 : ContextInfo :=
  { tokenType := some TokenType.key, token := { string := "", start := 0, stop := 0 },
    offset := 0, keyName := "", parentKeyName := "", isArray := false,
    shouldReplace := false, exclusionList := [] }

/-- A KEY context over an unquoted token, with whole-token
replacement. -/
def ctxC2 : ContextInfo :=
  { tokenType := some TokenType.key, token := { string := "x", start := 0, stop := 1 },
    offset := 1, keyName := "", parentKeyName := "", isArray := false,
    shouldReplace := true, exclusionList := [] }

/-- A KEY context over an unquoted token without whole-token
replacement. -/
def ctxC2w : ContextInfo :=
  { tokenType := some TokenType.key, token := { string := "x", start := 0, stop := 1 },
    offset := 0, keyName := "", parentKeyName := "", isArray := false,
    shouldReplace := false, exclusionList := [] }

/-- A KEY context over a quoted token with whole-token replacement. -/
def ctxC3 : ContextInfo :=
  { tokenType := some TokenType.key, token := { string := "\"b\"", start := 0, stop := 3 },
    offset := 1, keyName := "", parentKeyName := "", isArray := false,
    shouldReplace := true, exclusionList := [] }

/-- A KEY context over a quoted token without whole-token
replacement. -/
def ctxKeyW : ContextInfo :=
  { tokenType := some TokenType.key, token := { string := "\"b\"", start := 0, stop := 3 },
    offset := 1, keyName := "", parentKeyName := "", isArray := false,
    shouldReplace := false, exclusionList := [] }

/-- A registry with one boolean root entry. -/
def dataC4 : Registry := [("opt", PrefEntry.mk (some "boolean") none none none none none)]

/-- A VALUE context whose exclusion list names one of the boolean
value candidates. -/
def ctxC4 : ContextInfo :=
  { tokenType := some TokenType.value, token := { string := "", start := 0, stop := 0 },
    offset := 0, keyName := "opt", parentKeyName := "", isArray := false,
    shouldReplace := false, exclusionList := ["true"] }

/-- A registry with two boolean root entries. -/
def dataC4w : Registry :=
  [("a", PrefEntry.mk (some "boolean") none none none none none),
   ("b", PrefEntry.mk (some "boolean") none none none none none)]

/-- A KEY context whose exclusion list names one of the two root
keys. -/
def ctxC4w : ContextInfo :=
  { tokenType := some TokenType.key, token := { string := "", start := 0, stop := 0 },
    offset := 0, keyName := "", parentKeyName := "", isArray := false,
    shouldReplace := false, exclusionList := ["a"] }

/-- A registry whose entry k is boolean typed and also declares an
allowed-value list. -/
def dataC5 : Registry :=
  [("k", PrefEntry.mk (some "boolean") none none (some ["x"]) none none)]

/-- A VALUE context for the key k. -/
def ctxC5 : ContextInfo :=
  { tokenType := some TokenType.value, token := { string := "", start := 0, stop := 0 },
    offset := 0, keyName := "k", parentKeyName := "", isArray := false,
    shouldReplace := false, exclusionList := [] }

/-- A VALUE context for an unknown key for which no value source
applies. -/
def ctxC6 : ContextInfo :=
  { tokenType := some TokenType.value, token := { string := "", start := 0, stop := 0 },
    offset := 0, keyName := "zz", parentKeyName := "", isArray := false,
    shouldReplace := false, exclusionList := [] }

/-- A KEY context under the blacklisted parent
language.fileExtensions. -/
def ctxC7 : ContextInfo :=
  { tokenType := some TokenType.key, token := { string := "\"\"", start := 0, stop := 2 },
    offset := 1, keyName := "", parentKeyName := "language.fileExtensions",
    isArray := false, shouldReplace := false, exclusionList := [] }

/-- The array-typed root entry linting.prefer. -/
def entryC8 : PrefEntry := PrefEntry.mk (some "array") none none none none none

/-- A registry with the root entry linting.prefer. -/
def dataC8 : Registry := [("linting.prefer", entryC8)]

/-- The C8 scenario context: a VALUE array element of linting.prefer
under the parent key javascript. -/
def ctxC8 : ContextInfo :=
  { tokenType := some TokenType.value, token := { string := "", start := 0, stop := 0 },
    offset := 0, keyName := "linting.prefer", parentKeyName := "javascript",
    isArray := true, shouldReplace := false, exclusionList := [] }

/-- The lint-provider registry used by the C8 witness. -/
def providersC8 : String → List String :=
  fun l => if l = "javascript" then ["jslint", "eslint"] else []

/-- A preference set containing a language entry carrying its own
description. -/
def prefsX : List (String × PrefEntry) :=
  [("language", PrefEntry.mk none (some "x") none none none none)]

/-- A preference set with one excluded entry and one language entry
without a description. -/
def prefsW : List (String × PrefEntry) :=
  [("quux", PrefEntry.mk none none none none none (some true)),
   ("language", PrefEntry.mk (some "object") none none none none none)]

/-! ### Helper lemmas -/

/-- Branch equation of insertHint for a KEY context. -/
theorem insertHint_key_eq (ctx : ContextInfo) (pos : EditorPos) (c : String)
    (ty : Option String) (hk : ctx.tokenType = some TokenType.key) :
    insertHint ctx pos c ty =
      { edit := some { text := keyCompletionText ctx c ty, line := pos.line,
                       startCh := (pos.ch : Int) - (ctx.offset : Int),
                       endCh := (ctx.token.stop : Int) },
        cursorCh :=
          if ty = some "object" ∨ ty = some "array" ∨ ty = some "string" then
            some ((pos.ch : Int) - (ctx.offset : Int) +
              ((keyCompletionText ctx c ty).length : Int) - 1)
          else none,
        result :=
          if ty = some "object" ∨ ty = some "array" ∨ ty = some "string" then
            some (if ty ≠ some "object" ∧ ctx.shouldReplace = false then true else false)
          else some true } := by
  unfold insertHint
  rw [hk]

/-- Branch equation of insertHint for a VALUE context. -/
theorem insertHint_value_eq (ctx : ContextInfo) (pos : EditorPos) (c : String)
    (ty : Option String) (hv : ctx.tokenType = some TokenType.value) :
    insertHint ctx pos c ty =
      { edit := some { text := valueCompletionText ctx c ty, line := pos.line,
                       startCh := (valueRange ctx pos).1,
                       endCh := (valueRange ctx pos).2 },
        cursorCh := none, result := some false } := by
  unfold insertHint
  rw [hv]

/-- Branch equation of getHints for a KEY context. -/
theorem getHints_key_eq (data : Registry) (languages : List String)
    (providersFor : String → List String) (themes : List String)
    (ctx : ContextInfo) (hk : ctx.tokenType = some TokenType.key) :
    getHints data languages providersFor themes (some ctx) =
      some { hints := basicMatchSort (keyHints data languages ctx (computeQuery ctx)),
             matchVal := none, selectInitial := true, handleWideResults := false } := by
  obtain ⟨tt, tok, off, kn, pkn, ia, sr, ex⟩ := ctx
  cases hk
  rfl

/-- Branch equation of getHints for a VALUE context. -/
theorem getHints_value_eq (data : Registry) (languages : List String)
    (providersFor : String → List String) (themes : List String)
    (ctx : ContextInfo) (hv : ctx.tokenType = some TokenType.value) :
    getHints data languages providersFor themes (some ctx) =
      match resolveValues data languages providersFor themes ctx with
      | none => none
      | some values =>
        some { hints := basicMatchSort (valueHints data values ctx (computeQuery ctx)),
               matchVal := none, selectInitial := true, handleWideResults := false } := by
  obtain ⟨tt, tok, off, kn, pkn, ia, sr, ex⟩ := ctx
  cases hv
  rfl

/-- An unrecognised type tag produces no empty body. -/
theorem bodyFor_empty (ty : Option String) (h1 : ty ≠ some "object")
    (h2 : ty ≠ some "array") (h3 : ty ≠ some "string") : bodyFor ty = "" := by
  cases ty with
  | none => rfl
  | some s =>
    unfold bodyFor
    split
    · exact absurd (by assumption) h1
    · exact absurd (by assumption) h2
    · exact absurd (by assumption) h3
    · rfl

/-! ### Claim theorems -/

/-- C1: the claim expects the KEY candidate foo with declared valueType
object, inserted into an empty line at offset 0 without whole-token
replacement, to produce the text consisting of the quoted candidate, a
colon, a space and an empty brace pair.  On the code the quote
character stays undefined over the empty token (the KEY branch has no
default) and is JS-coerced to the literal text undefined, so the
inserted text is undefinedfooundefined followed by colon, space and the
brace pair; the cursor does land between the braces (one before the end
of the inserted text) and the returned continue-session flag is false,
as the claim states. -/
theorem C1_key_empty_line_eval :
    insertHint ctxC1 { line := 0, ch := 0 } "foo" (some "object") =
      { edit := some { text := "undefinedfooundefined: \x7b\x7d", line := 0,
                       startCh := 0, endCh := 0 },
        cursorCh := some 24, result := some false } := by
  rfl

/-- C2 counterexample: over a KEY token whose first character is not a
quote character, the wrapper around the completion is not a fixed
default quote character but the JS coercion of the undefined quote
variable, the literal text undefined. -/
theorem C2_counterexample :
    (insertHint ctxC2 { line := 0, ch := 1 } "abc" none).edit =
      some { text := "undefinedabcundefined", line := 0, startCh := 0, endCh := 1 } ∧
    "undefinedabcundefined" ≠ "\"" ++ "abc" ++ "\"" := by
  exact ⟨rfl, by decide⟩

/-- C2 (amended): insertHint is embedded as a total function (no branch
raises); an unrecognised valueType tag appends no empty body after the
colon; the fixed default quote character exists only in the VALUE
branch — in the KEY branch a token that does not begin with a quote
character leaves the quote variable undefined and the completion is
wrapped in the JS coercion of undefined, the literal text undefined. -/
theorem C2_amended (ctx : ContextInfo) (pos : EditorPos) (c : String)
    (ty : Option String)
    (hq : ∀ ch, ctx.token.string.toList.head? = some ch → isQuoteChar ch = false) :
    (ctx.tokenType = some TokenType.key → ctx.shouldReplace = false →
      ty ≠ some "object" → ty ≠ some "array" → ty ≠ some "string" →
      insertHint ctx pos c ty =
        { edit := some { text := "undefined" ++ c ++ "undefined" ++ ": ",
                         line := pos.line,
                         startCh := (pos.ch : Int) - (ctx.offset : Int),
                         endCh := (ctx.token.stop : Int) },
          cursorCh := none, result := some true }) ∧
    (ctx.tokenType = some TokenType.value →
      (ty = none ∨ ty = some "" ∨ ty = some "string") →
      insertHint ctx pos c ty =
        { edit := some { text := "\"" ++ c ++ "\"", line := pos.line,
                         startCh := (valueRange ctx pos).1,
                         endCh := (valueRange ctx pos).2 },
          cursorCh := none, result := some false }) := by
  have hqk : quoteCharForKey ctx.token.string = none := by
    unfold quoteCharForKey
    cases hh : ctx.token.string.toList.head? with
    | none => rfl
    | some ch =>
      show (if isQuoteChar ch = true then some (String.mk [ch]) else none) = none
      rw [hq ch hh]
      rfl
  have hqv : quoteCharForValue ctx.token.string = "\"" := by
    unfold quoteCharForValue
    cases hh : ctx.token.string.toList.head? with
    | none => rfl
    | some ch =>
      show (if isQuoteChar ch = true then String.mk [ch] else "\"") = "\""
      rw [hq ch hh]
      rfl
  constructor
  · intro hk hsr h1 h2 h3
    have hmem : ¬ (ty = some "object" ∨ ty = some "array" ∨ ty = some "string") := by
      rintro (h | h | h)
      exacts [h1 h, h2 h, h3 h]
    have htext : keyCompletionText ctx c ty = "undefined" ++ c ++ "undefined" ++ ": " := by
      unfold keyCompletionText
      rw [hqk, hsr, bodyFor_empty ty h1 h2 h3]
      rw [if_neg (fun h => Bool.false_ne_true h)]
      exact String.append_empty _
    rw [insertHint_key_eq ctx pos c ty hk, htext, if_neg hmem, if_neg hmem]
  · intro hv hty
    have htext : valueCompletionText ctx c ty = "\"" ++ c ++ "\"" := by
      unfold valueCompletionText
      rw [if_pos hty, hqv]
    rw [insertHint_value_eq ctx pos c ty hv, htext]

/-- C2 witness: the amended claim applied to a KEY insertion over the
unquoted token x with an unrecognised type tag. -/
theorem C2_amended_witness :
    insertHint ctxC2w { line := 0, ch := 0 } "abc" none =
      { edit := some { text := "undefinedabcundefined: ", line := 0,
                       startCh := 0, endCh := 1 },
        cursorCh := none, result := some true } := by
  have h := C2_amended ctxC2w { line := 0, ch := 0 } "abc" none
    (by intro ch hch; cases hch; decide)
  exact h.1 rfl rfl (by decide) (by decide) (by decide)

/-- C3 counterexample: a KEY insertion whose declared type is boolean
with whole-token replacement indicated returns continue-session true,
although the claim demands false whenever the context indicated
whole-token replacement (and true only for array or string bodies). -/
theorem C3_counterexample :
    ctxC3.shouldReplace = true ∧
    (insertHint ctxC3 { line := 0, ch := 1 } "foo" (some "boolean")).result =
      some true := by
  exact ⟨rfl, rfl⟩

/-- C3 (amended): for a KEY insertion the continue-session flag is true
exactly when the declared type lies outside object/array/string
(regardless of whole-token replacement) or is array/string without
whole-token replacement; it is false for object bodies and for
array/string bodies under whole-token replacement.  When a paired
opener was inserted (type object/array/string, no whole-token
replacement) the inserted text ends with the two-character body and the
cursor is placed one position before its end, immediately inside the
pair. -/
theorem C3_amended (ctx : ContextInfo) (pos : EditorPos) (c : String)
    (ty : Option String) (hk : ctx.tokenType = some TokenType.key) :
    ((insertHint ctx pos c ty).result = some true ↔
      ¬(ty = some "object" ∨ ty = some "array" ∨ ty = some "string") ∨
        ((ty = some "array" ∨ ty = some "string") ∧ ctx.shouldReplace = false)) ∧
    ((ty = some "object" ∨ ty = some "array" ∨ ty = some "string") →
      ctx.shouldReplace = false →
      ∃ p e, (insertHint ctx pos c ty).edit = some e ∧
        e.text = p ++ bodyFor ty ∧
        (insertHint ctx pos c ty).cursorCh =
          some (e.startCh + (e.text.length : Int) - 1)) := by
  rw [insertHint_key_eq ctx pos c ty hk]
  constructor
  · show (if ty = some "object" ∨ ty = some "array" ∨ ty = some "string" then
        some (if ty ≠ some "object" ∧ ctx.shouldReplace = false then true else false)
      else some true) = some true ↔ _
    by_cases hmem : ty = some "object" ∨ ty = some "array" ∨ ty = some "string"
    · rw [if_pos hmem]
      by_cases hc : ty ≠ some "object" ∧ ctx.shouldReplace = false
      · rw [if_pos hc]
        constructor
        · intro _
          rcases hmem with h | h | h
          · exact absurd h hc.1
          · exact Or.inr ⟨Or.inl h, hc.2⟩
          · exact Or.inr ⟨Or.inr h, hc.2⟩
        · intro _
          rfl
      · rw [if_neg hc]
        constructor
        · intro hfalse
          exact absurd hfalse (by decide)
        · rintro (hr | ⟨hr1, hr2⟩)
          · exact absurd hmem hr
          · refine absurd ⟨?_, hr2⟩ hc
            rcases hr1 with h | h <;> rw [h] <;> decide
    · rw [if_neg hmem]
      constructor
      · intro _
        exact Or.inl hmem
      · intro _
        rfl
  · intro hmem hsr
    refine ⟨jsCoe (quoteCharForKey ctx.token.string) ++ c ++
      jsCoe (quoteCharForKey ctx.token.string) ++ ": ", _, rfl, ?_, ?_⟩
    · show keyCompletionText ctx c ty = _
      unfold keyCompletionText
      rw [hsr]
      rfl
    · show (if ty = some "object" ∨ ty = some "array" ∨ ty = some "string" then
          some ((pos.ch : Int) - (ctx.offset : Int) +
            ((keyCompletionText ctx c ty).length : Int) - 1)
        else none) = _
      rw [if_pos hmem]

/-- C3 witness: the amended claim applied to a KEY insertion of an
array-typed candidate without whole-token replacement. -/
theorem C3_amended_witness :
    (insertHint ctxKeyW { line := 0, ch := 1 } "foo" (some "array")).result =
      some true := by
  exact ((C3_amended ctxKeyW { line := 0, ch := 1 } "foo" (some "array") rfl).1).mpr
    (Or.inr ⟨Or.inl rfl, rfl⟩)

/-- C9: inserting an untyped VALUE candidate bar over a token whose
text is the candidate b wrapped in single quotes, with whole-token
replacement indicated, replaces the whole token span with bar wrapped
in the single-quote character of the token, and the returned
continue-session flag is false. -/
theorem C9_value_single_quote (st sp line ch off : Nat) (k p : String)
    (ia : Bool) (ex : List String) :
    insertHint { tokenType := some TokenType.value,
                 token := { string := String.mk [squote, Char.ofNat 98, squote],
                            start := st, stop := sp },
                 offset := off, keyName := k, parentKeyName := p, isArray := ia,
                 shouldReplace := true, exclusionList := ex }
      { line := line, ch := ch } "bar" none =
    { edit := some { text := String.mk [squote, Char.ofNat 98, Char.ofNat 97,
                       Char.ofNat 114, squote],
                     line := line, startCh := (st : Int), endCh := (sp : Int) },
      cursorCh := none, result := some false } := by
  rfl

/-- C4 counterexample: for a VALUE context the exclusion list is never
consulted — a boolean-typed option yields the candidates false and
true even though true is on the exclusion list of the context. -/
theorem C4_counterexample :
    (getHints dataC4 [] (fun _ => []) [] (some ctxC4)).map
        (fun r => r.hints.map HintMatch.value) = some ["false", "true"] ∧
    ctxC4.exclusionList.contains "true" = true := by
  exact ⟨rfl, rfl⟩

/-- C4 (amended): for every registry, language list and KEY context,
getHints never returns a candidate whose name appears in the exclusion
list of the context; the VALUE branch performs no such filtering. -/
theorem C4_amended (data : Registry) (languages : List String)
    (providersFor : String → List String) (themes : List String)
    (ctx : ContextInfo) (resp : HintResponse) (m : HintMatch)
    (hk : ctx.tokenType = some TokenType.key)
    (h : getHints data languages providersFor themes (some ctx) = some resp)
    (hm : m ∈ resp.hints) :
    ctx.exclusionList.contains m.value = false := by
  rw [getHints_key_eq data languages providersFor themes ctx hk] at h
  injection h with h2
  subst h2
  unfold basicMatchSort keyHints at hm
  rcases List.mem_filterMap.mp hm with ⟨e, he, hfe⟩
  by_cases hc : ctx.exclusionList.contains e.1 = true
  · rw [if_pos hc] at hfe
    exact absurd hfe (by simp)
  · rw [if_neg hc] at hfe
    by_cases ha : stringMatchAccepts e.1 (computeQuery ctx) = true
    · rw [if_pos ha] at hfe
      injection hfe with hfe2
      subst hfe2
      simpa using hc
    · rw [if_neg ha] at hfe
      exact absurd hfe (by simp)

/-- C4 witness: the amended claim applied to a KEY context excluding
the root key a, where the returned candidate is b. -/
theorem C4_amended_witness :
    ctxC4w.exclusionList.contains "b" = false := by
  have h := C4_amended dataC4w [] (fun _ => []) [] ctxC4w
    { hints := [{ value := "b", type := some "boolean", description := none }],
      matchVal := none, selectInitial := true, handleWideResults := false }
    { value := "b", type := some "boolean", description := none }
    rfl rfl (by decide)
  exact h

/-- C5: for every registry and VALUE context whose resolved option has
boolean type, the unranked value candidate set is exactly the
two-element list false, true, regardless of any allowed-value list
declared on the entry. -/
theorem C5_boolean_values (data : Registry) (languages : List String)
    (providersFor : String → List String) (themes : List String)
    (ctx : ContextInfo)
    (hv : ctx.tokenType = some TokenType.value)
    (hb : (resolveOption data ctx.parentKeyName ctx.keyName).type = some "boolean") :
    resolveValues data languages providersFor themes ctx = some ["false", "true"] := by
  unfold resolveValues valuesFromOption
  rw [if_pos hb]

/-- C5 witness: the boolean entry k also declares the allowed-value
list x, which is ignored. -/
theorem C5_boolean_values_witness :
    resolveValues dataC5 [] (fun _ => []) [] ctxC5 = some ["false", "true"] := by
  exact C5_boolean_values dataC5 [] (fun _ => []) [] ctxC5 rfl rfl

/-- C6: for a VALUE context in which no value source applies (the
resolved option is not boolean, no applicable allowed-value list is
defined, and none of the dynamic providers is triggered), getHints
returns the null result — no candidates, and no error since the
embedding is a total function. -/
theorem C6_inapplicable_value_null (data : Registry) (languages : List String)
    (providersFor : String → List String) (themes : List String)
    (ctx : ContextInfo)
    (hv : ctx.tokenType = some TokenType.value)
    (h1 : ¬ (resolveOption data ctx.parentKeyName ctx.keyName).type = some "boolean")
    (h2 : ¬ ((resolveOption data ctx.parentKeyName ctx.keyName).values.isSome = true ∧
      ((resolveOption data ctx.parentKeyName ctx.keyName).type = some "number" ∨
       (resolveOption data ctx.parentKeyName ctx.keyName).type = some "string" ∨
       ((resolveOption data ctx.parentKeyName ctx.keyName).type = some "array" ∧
         ctx.isArray = true))))
    (h3 : ¬ (ctx.isArray = true ∧ ctx.keyName = "linting.prefer" ∧
      languages.contains ctx.parentKeyName = true))
    (h4 : ¬ ctx.keyName = "themes.theme")
    (h5 : ¬ (ctx.parentKeyName = "language.fileExtensions" ∨
      ctx.parentKeyName = "language.fileNames")) :
    getHints data languages providersFor themes (some ctx) = none := by
  have hrv : resolveValues data languages providersFor themes ctx = none := by
    unfold resolveValues valuesFromOption
    rw [if_neg h1, if_neg h2, if_neg h3, if_neg h4, if_neg h5]
  rw [getHints_value_eq data languages providersFor themes ctx hv, hrv]

/-- C6 witness: an unknown key in an empty registry triggers no value
source. -/
theorem C6_inapplicable_value_null_witness :
    getHints [] [] (fun _ => []) [] (some ctxC6) = none := by
  exact C6_inapplicable_value_null [] [] (fun _ => []) [] ctxC6 rfl
    (by decide) (by decide) (by decide) (by decide) (by decide)

/-- C7: whenever hint enablement holds, the detected mode is JSON and
the context is KEY-typed with parent key language.fileExtensions, the
availability check returns false. -/
theorem C7_blacklisted_parent (enabled : Bool) (mode : String) (ctx : ContextInfo)
    (he : enabled = true) (hm : mode = "application/json")
    (hk : ctx.tokenType = some TokenType.key)
    (hp : ctx.parentKeyName = "language.fileExtensions") :
    hasHints enabled mode (some ctx) = false := by
  subst he
  subst hm
  unfold hasHints
  rw [if_pos ⟨rfl, rfl⟩]
  show (if ctx.tokenType.isSome then
      if ctx.tokenType = some TokenType.key ∧
          parentKeyBlacklist.contains ctx.parentKeyName = true then false
      else true
    else false) = false
  rw [hk, hp]
  rfl

/-- C7 witness: the availability check on a concrete blacklisted
context. -/
theorem C7_blacklisted_parent_witness :
    hasHints true "application/json" (some ctxC7) = false := by
  exact C7_blacklisted_parent true "application/json" ctxC7 rfl rfl rfl rfl

/-- C8: with a root entry linting.prefer of type array and no declared
allowed values, no nested entry for it under the parent, and the
parent key javascript a known language, a VALUE array-element context
for linting.prefer yields exactly the lint-provider list of javascript,
in provider order, as the unranked candidate set. -/
theorem C8_linting_prefer_providers (data : Registry) (languages : List String)
    (providersFor : String → List String) (themes : List String)
    (e : PrefEntry) (ctx : ContextInfo)
    (hv : ctx.tokenType = some TokenType.value)
    (hp : ctx.parentKeyName = "javascript")
    (hkn : ctx.keyName = "linting.prefer")
    (ha : ctx.isArray = true)
    (hnested : ((lookupAssoc data "javascript").bind PrefEntry.keys).bind
        (fun ks => lookupAssoc ks "linting.prefer") = none)
    (hroot : lookupAssoc data "linting.prefer" = some e)
    (htype : e.type = some "array")
    (hvals : e.values = none)
    (hlang : languages.contains "javascript" = true) :
    resolveValues data languages providersFor themes ctx =
      some (providersFor "javascript") := by
  have hopt : resolveOption data ctx.parentKeyName ctx.keyName = e := by
    rw [hp, hkn]
    unfold resolveOption
    rw [hnested, hroot]
  unfold resolveValues
  rw [hopt]
  unfold valuesFromOption
  have h1 : ¬ e.type = some "boolean" := by
    rw [htype]
    decide
  have h2 : ¬ (e.values.isSome = true ∧ (e.type = some "number" ∨
      e.type = some "string" ∨ (e.type = some "array" ∧ ctx.isArray = true))) := by
    rw [hvals]
    intro hcon
    exact absurd hcon.1 (by decide)
  rw [if_neg h1, if_neg h2, if_pos ⟨ha, hkn, by rw [hp]; exact hlang⟩, hp]

/-- C8 witness: the scenario instantiated with a concrete registry,
language list and provider registry. -/
theorem C8_linting_prefer_providers_witness :
    resolveValues dataC8 ["javascript"] providersC8 [] ctxC8 =
      some ["jslint", "eslint"] := by
  exact C8_linting_prefer_providers dataC8 ["javascript"] providersC8 []
    entryC8 ctxC8 rfl rfl rfl rfl rfl rfl rfl rfl rfl

/-- Lookup after assignment: the assigned key reads back the new value,
every other key is unchanged. -/
theorem lookupAssoc_setAssoc {α : Type} (d : List (String × α)) (k q : String) (v : α) :
    lookupAssoc (setAssoc d k v) q = if k = q then some v else lookupAssoc d q := by
  induction d with
  | nil =>
    show (if k = q then some v else none) = if k = q then some v else none
    rfl
  | cons hd tl ih =>
    obtain ⟨n, e⟩ := hd
    by_cases hnk : n = k
    · subst hnk
      show lookupAssoc (if n = n then (n, v) :: tl else _) q = _
      rw [if_pos rfl]
      show (if n = q then some v else lookupAssoc tl q) = _
      by_cases hnq : n = q
      · rw [if_pos hnq, if_pos hnq]
      · rw [if_neg hnq, if_neg hnq]
        show _ = if n = q then some e else lookupAssoc tl q
        rw [if_neg hnq]
    · show lookupAssoc (if n = k then _ else (n, e) :: setAssoc tl k v) q = _
      rw [if_neg hnk]
      show (if n = q then some e else lookupAssoc (setAssoc tl k v) q) = _
      rw [ih]
      by_cases hnq : n = q
      · rw [if_pos hnq, if_neg (fun hkq => hnk (hnq.trans hkq.symm))]
        show _ = if n = q then some e else lookupAssoc tl q
        rw [if_pos hnq]
      · rw [if_neg hnq]
        by_cases hkq : k = q
        · rw [if_pos hkq, if_pos hkq]
        · rw [if_neg hkq, if_neg hkq]
          show _ = if n = q then some e else lookupAssoc tl q
          rw [if_neg hnq]

/-- The description field of a merged entry: the source description
when defined, else the target description. -/
theorem extendEntry_description (t s : PrefEntry) :
    (extendEntry t s).description = orOpt s.description t.description := by
  cases t
  cases s
  rfl

/-- Registering a preference never removes a present key. -/
theorem registerPref_keeps_isSome (d : Registry) (n q : String) (p : PrefEntry)
    (h : (lookupAssoc d q).isSome = true) :
    (lookupAssoc (registerPref d n p) q).isSome = true := by
  unfold registerPref
  by_cases he : p.excludeFromHints = some true
  · rw [if_pos he]
    exact h
  · rw [if_neg he, lookupAssoc_setAssoc]
    by_cases hnq : n = q
    · rw [if_pos hnq]
      rfl
    · rw [if_neg hnq]
      exact h

/-- Registering a preference without its own description keeps the
stored description of its key; other keys are untouched. -/
theorem registerPref_keeps_description (d : Registry) (n key : String)
    (p : PrefEntry) (dsc : Option String)
    (hdesc : n = key → p.description = none)
    (h : (lookupAssoc d key).map PrefEntry.description = some dsc) :
    (lookupAssoc (registerPref d n p) key).map PrefEntry.description = some dsc := by
  unfold registerPref
  by_cases he : p.excludeFromHints = some true
  · rw [if_pos he]
    exact h
  · rw [if_neg he, lookupAssoc_setAssoc]
    by_cases hnk : n = key
    · rw [if_pos hnk]
      rw [hnk]
      cases hold : lookupAssoc d key with
      | none =>
        rw [hold] at h
        exact absurd h (by simp)
      | some old =>
        rw [hold] at h
        show some (extendEntry ((some old).getD emptyOption) p).description = some dsc
        rw [extendEntry_description, hdesc hnk]
        exact h
    · rw [if_neg hnk]
      exact h

/-- Registering an excluded preference leaves an absent key absent. -/
theorem registerPref_keeps_none (d : Registry) (n name : String) (p : PrefEntry)
    (hexc : n = name → p.excludeFromHints = some true)
    (h : lookupAssoc d name = none) :
    lookupAssoc (registerPref d n p) name = none := by
  unfold registerPref
  by_cases he : p.excludeFromHints = some true
  · rw [if_pos he]
    exact h
  · rw [if_neg he, lookupAssoc_setAssoc]
    by_cases hnk : n = name
    · exact absurd (hexc hnk) he
    · rw [if_neg hnk]
      exact h

/-- The build fold never removes a present key. -/
theorem foldRegister_keeps_isSome (q : String) (prefs : List (String × PrefEntry)) :
    ∀ d : Registry, (lookupAssoc d q).isSome = true →
    (lookupAssoc (prefs.foldl (fun d x => registerPref d x.1 x.2) d) q).isSome = true := by
  induction prefs with
  | nil =>
    intro d h
    exact h
  | cons hd tl ih =>
    intro d h
    simp only [List.foldl_cons]
    exact ih (registerPref d hd.1 hd.2) (registerPref_keeps_isSome d hd.1 q hd.2 h)

/-- The build fold keeps the stored description of a key when no
folded preference of that name carries its own description. -/
theorem foldRegister_keeps_description (key : String) (dsc : Option String)
    (prefs : List (String × PrefEntry)) :
    ∀ d : Registry,
    (∀ x ∈ prefs, x.1 = key → (x.2).description = none) →
    (lookupAssoc d key).map PrefEntry.description = some dsc →
    (lookupAssoc (prefs.foldl (fun d x => registerPref d x.1 x.2) d) key).map
      PrefEntry.description = some dsc := by
  induction prefs with
  | nil =>
    intro d _ h
    exact h
  | cons hd tl ih =>
    intro d hq h
    simp only [List.foldl_cons]
    exact ih (registerPref d hd.1 hd.2)
      (fun x hx => hq x (List.mem_cons_of_mem _ hx))
      (registerPref_keeps_description d hd.1 key hd.2 dsc
        (fun hnk => hq hd (List.mem_cons_self _ _) hnk) h)

/-- The build fold leaves a key absent when every folded preference of
that name is flagged excludeFromHints. -/
theorem foldRegister_keeps_none (name : String)
    (prefs : List (String × PrefEntry)) :
    ∀ d : Registry,
    (∀ x ∈ prefs, x.1 = name → (x.2).excludeFromHints = some true) →
    lookupAssoc d name = none →
    lookupAssoc (prefs.foldl (fun d x => registerPref d x.1 x.2) d) name = none := by
  induction prefs with
  | nil =>
    intro d _ h
    exact h
  | cons hd tl ih =>
    intro d hq h
    simp only [List.foldl_cons]
    exact ih (registerPref d hd.1 hd.2)
      (fun x hx => hq x (List.mem_cons_of_mem _ hx))
      (registerPref_keeps_none d hd.1 name hd.2
        (fun hnk => hq hd (List.mem_cons_self _ _) hnk) h)

/-- C10 counterexample: building the registry from a preference set
containing a language entry that carries its own description overwrites
the fixed built-in description of the reserved language root entry, so
the reserved entries are not present with their fixed descriptions for
every preference set. -/
theorem C10_counterexample :
    (lookupAssoc (buildData prefsX) "language").map PrefEntry.description =
      some (some "x") ∧
    ¬ ((lookupAssoc (buildData prefsX) "language").map PrefEntry.description =
      some (some DESCRIPTION_LANGUAGE)) := by
  exact ⟨rfl, by decide⟩

/-- C10 (amended): after the registry is built from any preference set
the reserved root entries language and path are present; an
identically-named preference is merged into the existing entry in
place — fields it does not define are retained, so in particular the
fixed description persists when no identically-named preference carries
its own description, while fields it does define overwrite the
built-in ones; and an entry absent from the built-ins all of whose
preferences are flagged excludeFromHints is never registered. -/
theorem C10_amended (prefs : List (String × PrefEntry)) :
    (lookupAssoc (buildData prefs) "language").isSome = true ∧
    (lookupAssoc (buildData prefs) "path").isSome = true ∧
    ((∀ x ∈ prefs, x.1 = "language" → (x.2).description = none) →
      (lookupAssoc (buildData prefs) "language").map PrefEntry.description =
        some (some DESCRIPTION_LANGUAGE)) ∧
    (∀ name, lookupAssoc initialData name = none →
      (∀ x ∈ prefs, x.1 = name → (x.2).excludeFromHints = some true) →
      lookupAssoc (buildData prefs) name = none) := by
  refine ⟨?_, ?_, ?_, ?_⟩
  · exact foldRegister_keeps_isSome "language" prefs initialData rfl
  · exact foldRegister_keeps_isSome "path" prefs initialData rfl
  · intro hq
    exact foldRegister_keeps_description "language" (some DESCRIPTION_LANGUAGE)
      prefs initialData hq rfl
  · intro name hinit hq
    exact foldRegister_keeps_none name prefs initialData hq hinit

/-- C10 witness: the amended claim applied to a preference set with one
excluded entry and one language entry without a description. -/
theorem C10_amended_witness :
    (lookupAssoc (buildData prefsW) "language").map PrefEntry.description =
      some (some DESCRIPTION_LANGUAGE) ∧
    lookupAssoc (buildData prefsW) "quux" = none := by
  have hdesc : ∀ x ∈ prefsW, x.1 = "language" → (x.2).description = none := by
    intro x hx
    rcases List.mem_cons.mp hx with h1 | hx2
    · subst h1
      intro hcon
      exact absurd hcon (by decide)
    · rcases List.mem_cons.mp hx2 with h2 | hx3
      · subst h2
        intro _
        rfl
      · exact absurd hx3 (List.not_mem_nil x)
  have hexc : ∀ x ∈ prefsW, x.1 = "quux" → (x.2).excludeFromHints = some true := by
    intro x hx
    rcases List.mem_cons.mp hx with h1 | hx2
    · subst h1
      intro _
      rfl
    · rcases List.mem_cons.mp hx2 with h2 | hx3
      · subst h2
        intro hcon
        exact absurd hcon (by decide)
      · exact absurd hx3 (List.not_mem_nil x)
  exact ⟨(C10_amended prefsW).2.2.1 hdesc, (C10_amended prefsW).2.2.2 "quux" rfl hexc⟩
